import Mathlib

/-!
Verification development for the TagStudio library core
(`src/core/library/alchemy` of the `yedpodtrzitko/TagStudio` fork).

The Python source is shallowly embedded: SQLAlchemy tables become lists of
records, each query of `library.py` becomes an executable Lean function that
mirrors the generated SQL (join row multiplicity included), and sessions /
transactions become explicit state passing.  Where the snapshot of the
repository misses a declaration that `library.py` relies on (the columns
`Entry.suffix` and `Entry.folder_id`, the filter fields `tag` / `path` /
`include_folders` / `exclude_folders` of `FilterState`, the `LibraryPrefs`
enum and the `Preferences` model), the definitions are modelled from the
specification, and this is flagged in the corresponding doc comment.
-/

namespace TagStudio

/-- Lower-case a string character by character, as SQL `ilike` does before
comparing (`ilike` lowers both operands). -/
def strLower (s : String) : String := String.mk (s.data.map Char.toLower)

/-- All suffixes of a list of characters, longest first, down to `[]`. -/
def tailsOf : List Char → List (List Char)
  | [] => [[]]
  | c :: cs => (c :: cs) :: tailsOf cs

/-- SQL `LIKE` matching over exploded strings: `%` matches any (possibly
empty) sequence, `_` matches exactly one character, anything else matches
itself.  Structural recursion on the pattern; the `%` case searches every
suffix of the subject. -/
def likeMatch : List Char → List Char → Bool
  | [], s => s.isEmpty
  | p :: ps, s =>
    if p == '%' then (tailsOf s).any (fun t => likeMatch ps t)
    else
      match s with
      | [] => false
      | c :: cs => (p == '_' || p == c) && likeMatch ps cs

/-- SQL `ilike`: case-insensitive `LIKE`. `sqlIlike pat s` is
`s ILIKE pat`. -/
def sqlIlike (pat s : String) : Bool :=
  likeMatch (strLower pat).data (strLower s).data

/-- Python truthiness of an optional string (`None` and `""` are falsy),
used by `search_library` for `if search.tag:` / `elif search.name:` /
`elif search.path:`. -/
def optStrTruthy : Option String → Bool
  | none => false
  | some s => !(s == "")

/-- Python truthiness of an optional integer (`None` and `0` are falsy),
used for `elif search.id:` and `if not search.id:`. -/
def optNatTruthy : Option Nat → Bool
  | none => false
  | some n => !(n == 0)

/-- `models.Tag`: id, unique name, optional shorthand.  Colour and icon are
omitted: no claim depends on them. -/
structure Tag where
  id : Nat
  name : String
  shorthand : Option String := none
deriving Repr, DecidableEq

/-- `models.TagAlias`: an alternate literal name resolving to a tag. -/
structure TagAlias where
  id : Nat
  tagId : Nat
  name : String
deriving Repr, DecidableEq

/-- `joins.TagSubtag`: one parent/child ("subtag") edge of the tag graph,
composite key `(parent_tag_id, subtag_id)`. -/
structure TagSubtag where
  parentTagId : Nat
  subtagId : Nat
deriving Repr, DecidableEq

/-- `fields.TagBoxField`, reduced to what the search engine consults:
its row id and the entry it belongs to. -/
structure TagBoxField where
  id : Nat
  entryId : Nat
deriving Repr, DecidableEq

/-- `joins.TagField`: membership of a tag in a tag box field. -/
structure TagField where
  fieldId : Nat
  tagId : Nat
deriving Repr, DecidableEq

/-- `models.Entry`, reduced to the columns the search engine consults.
`suffix` and `folderId` are referenced by `library.py`
(`Entry.suffix`, `Entry.folder_id`) but absent from the snapshot's
`models.py`; they are modelled from the spec (file-extension suffix and
owning-folder reference of an entry). -/
structure Entry where
  id : Nat
  path : String
  suffix : String := ""
  folderId : Nat := 0
deriving Repr, DecidableEq

/-- The relational state of one library: one list per table, plus the two
preference rows the search engine reads (`EXTENSION_LIST` and
`IS_EXCLUDE_LIST`, modelled from the spec since the `LibraryPrefs` enum and
the `Preferences` model are absent from the snapshot), plus the
autoincrement counter for entry ids. -/
structure Library where
  entries : List Entry := []
  tagBoxFields : List TagBoxField := []
  tagFields : List TagField := []
  tags : List Tag := []
  tagAliases : List TagAlias := []
  tagSubtags : List TagSubtag := []
  extensionList : List String := []
  isExcludeList : Bool := false
  nextEntryId : Nat := 1
deriving Repr, DecidableEq

/-- `enums.FilterState`.  The snapshot's dataclass declares `page_index`,
`page_size`, `name`, `id`, `tag_id`; the fields `tag`, `path`,
`include_folders` and `exclude_folders` are the ones `search_library`
additionally reads and are modelled from the spec. -/
structure FilterState where
  page_index : Nat := 0
  page_size : Nat := 100
  name : Option String := none
  id : Option Nat := none
  tag_id : Option Nat := none
  tag : Option String := none
  path : Option String := none
  include_folders : List Nat := []
  exclude_folders : List Nat := []
deriving Repr, DecidableEq

/-- `FilterState.limit` property: the page size. -/
def FilterState.limit (f : FilterState) : Nat := f.page_size

/-- `FilterState.offset` property: `page_size * page_index`. -/
def FilterState.offset (f : FilterState) : Nat := f.page_size * f.page_index

/-- `SearchResult`: total match count (ignoring pagination) and the items
of the requested page. -/
structure SearchResult where
  total_count : Nat
  items : List Entry
deriving Repr, DecidableEq

/-- `SearchResult.__bool__`: true iff `total_count > 0`. -/
def SearchResult.toBool (r : SearchResult) : Bool := decide (0 < r.total_count)

/-- `SearchResult.__len__`: the number of items on the current page. -/
def SearchResult.pyLen (r : SearchResult) : Nat := r.items.length

/-- The tags joined to a tag box field through the `tag_fields` table
(`TagBoxField.tags` relationship). -/
def tagsOfField (L : Library) (fieldId : Nat) : List Tag :=
  (L.tagFields.filter (fun tf => tf.fieldId == fieldId)).filterMap
    (fun tf => L.tags.find? (fun t => t.id == tf.tagId))

/-- The aliases of a tag (`Tag.aliases` relationship). -/
def aliasesOfTag (L : Library) (tagId : Nat) : List TagAlias :=
  L.tagAliases.filter (fun a => a.tagId == tagId)

/-- The subtags (children) of a tag (`Tag.subtags` relationship:
this tag as `parent_tag_id`, the related tag as `subtag_id`). -/
def subtagsOfTag (L : Library) (tagId : Nat) : List Tag :=
  (L.tagSubtags.filter (fun s => s.parentTagId == tagId)).filterMap
    (fun s => L.tags.find? (fun t => t.id == s.subtagId))

/-- LEFT OUTER JOIN row expansion: an empty right side still yields one
row, with NULL for the joined columns. -/
def leftOuter {α : Type} (l : List α) : List (Option α) :=
  if l.isEmpty then [none] else l.map some

/-- WHERE clause of the `search.tag` branch: the tag's name, its shorthand,
the joined alias's name, or the joined subtag's name `ilike` the query
(NULL columns are falsy). -/
def tagRowCond (q : String) (t : Tag) (al : Option TagAlias) (st : Option Tag) : Bool :=
  sqlIlike q t.name
    || (match t.shorthand with | some sh => sqlIlike q sh | none => false)
    || (match al with | some a => sqlIlike q a.name | none => false)
    || (match st with | some s2 => sqlIlike q s2.name | none => false)

/-- Number of join rows the `search.tag` branch produces for one entry:
entry ⋈ tag_box_fields ⋈ tags ⟕ tag_aliases ⟕ subtags, filtered by
`tagRowCond`.  No DISTINCT is applied in the source, so multiplicity
matters. -/
def tagQueryRowCount (L : Library) (q : String) (e : Entry) : Nat :=
  ((L.tagBoxFields.filter (fun f => f.entryId == e.id)).flatMap (fun f =>
    (tagsOfField L f.id).flatMap (fun t =>
      (leftOuter (aliasesOfTag L t.id)).flatMap (fun al =>
        (leftOuter (subtagsOfTag L t.id)).filterMap (fun st =>
          if tagRowCond q t al st then some () else none))))).length

/-- Number of join rows the `search.tag_id` branch produces for one entry:
entry ⋈ tag_box_fields ⋈ tags, keeping rows whose tag id is the query. -/
def tagIdQueryRowCount (L : Library) (tid : Nat) (e : Entry) : Nat :=
  ((L.tagBoxFields.filter (fun f => f.entryId == e.id)).flatMap (fun f =>
    (tagsOfField L f.id).filter (fun t => t.id == tid))).length

/-- The `search.name` branch: `path ILIKE '%name%'` and not
`path ILIKE '%name%/%'` (no match inside a directory prefix). -/
def namePred (q : String) (e : Entry) : Bool :=
  sqlIlike ("%" ++ q ++ "%") e.path && !(sqlIlike ("%" ++ q ++ "%/%") e.path)

/-- The `search.path` branch: plain `path ILIKE '%path%'`. -/
def pathPred (q : String) (e : Entry) : Bool :=
  sqlIlike ("%" ++ q ++ "%") e.path

/-- Join-row multiplicity of the primary predicate for one entry, following
the `if`/`elif` chain of `search_library` exactly: `tag` (truthy), then
`tag_id` (`is not None`), then `id` (truthy), then `name` (truthy), then
`path` (truthy), else no predicate (one row per entry). -/
def primaryRowCount (L : Library) (f : FilterState) (e : Entry) : Nat :=
  if optStrTruthy f.tag then tagQueryRowCount L (f.tag.getD "") e
  else if f.tag_id.isSome then tagIdQueryRowCount L (f.tag_id.getD 0) e
  else if optNatTruthy f.id then (if e.id == f.id.getD 0 then 1 else 0)
  else if optStrTruthy f.name then (if namePred (f.name.getD "") e then 1 else 0)
  else if optStrTruthy f.path then (if pathPred (f.path.getD "") e then 1 else 0)
  else 1

/-- Extension allow/deny clause: with a non-empty list marked exclude,
keep entries whose suffix is not in the list; with a non-empty allow list,
keep entries whose suffix is in the list; empty list filters nothing. -/
def extensionOk (L : Library) (e : Entry) : Bool :=
  if !L.extensionList.isEmpty && L.isExcludeList then !(L.extensionList.contains e.suffix)
  else if !L.extensionList.isEmpty then L.extensionList.contains e.suffix
  else true

/-- Folder scoping clause: a non-empty exclude set drops its folders,
else a non-empty include set keeps only its folders. -/
def folderOk (f : FilterState) (e : Entry) : Bool :=
  if !f.exclude_folders.isEmpty then !(f.exclude_folders.contains e.folderId)
  else if !f.include_folders.isEmpty then f.include_folders.contains e.folderId
  else true

/-- The secondary filters, applied unless `search.id` is truthy
(`if not search.id:` in the source). -/
def secondaryOk (L : Library) (f : FilterState) (e : Entry) : Bool :=
  if optNatTruthy f.id then true else extensionOk L e && folderOk f e

/-- Join rows contributed by one entry after all WHERE clauses. -/
def entryRowCount (L : Library) (f : FilterState) (e : Entry) : Nat :=
  if secondaryOk L f e then primaryRowCount L f e else 0

/-- The full (unpaginated) row list of the compiled statement: the entry
table is scanned in storage order and each entry contributes one row per
surviving join tuple. -/
def searchRows (L : Library) (f : FilterState) : List Entry :=
  L.entries.flatMap (fun e => List.replicate (entryRowCount L f e) e)

/-- ORM `.unique()` deduplication: keep the first row for each entry
identity (primary key). -/
def dedupByIdAux : List Nat → List Entry → List Entry
  | _, [] => []
  | seen, e :: rest =>
    if seen.contains e.id then dedupByIdAux seen rest
    else e :: dedupByIdAux (e.id :: seen) rest

/-- `dedupByIdAux` from an empty seen set. -/
def dedupById (l : List Entry) : List Entry := dedupByIdAux [] l

/-- `Library.search_library`: count all rows of the statement, then apply
`LIMIT search.limit OFFSET search.offset` and deduplicate the page's rows
by entry identity. -/
def Library.search_library (L : Library) (f : FilterState) : SearchResult :=
  { total_count := (searchRows L f).length
    items := dedupById (((searchRows L f).drop f.offset).take f.limit) }

/-- Spec-side notion used by the contract of `search_library` ("the count
of all matching entries ignoring pagination"): the entries for which the
active primary predicate and the secondary filters hold, each counted
once. -/
def specMatchingEntries (L : Library) (f : FilterState) : List Entry :=
  L.entries.filter (fun e => !(primaryRowCount L f e == 0) && secondaryOk L f e)

/-- Python `set.add` on a set represented as a duplicate-free list:
membership-guarded append. -/
def setInsert (l : List Nat) (x : Nat) : List Nat :=
  if l.contains x then l else l ++ [x]

/-- Python `set.update`: insert every element of the second list. -/
def setUnion (l m : List Nat) : List Nat := m.foldl setInsert l

/-- The child ids of a tag read directly off the edge table
(`tag.subtag_ids` in the source). -/
def childIdsOf (edges : List TagSubtag) (tagId : Nat) : List Nat :=
  edges.filterMap (fun s => if s.parentTagId == tagId then some s.subtagId else none)

/-- Outcome of one traversal call: the accumulated id set, the
`ValueError` raised when the tag id is not in the tag table, or fuel
exhaustion (standing for the unbounded recursion of the source, which has
no termination guard of its own). -/
inductive TraversalOutcome
  | ok (ids : List Nat)
  | missingTag
  | outOfFuel
deriving Repr, DecidableEq

mutual

/-- `Library.get_all_child_tag_ids`, embedded with explicit fuel: start
from `{tag_id}`, add the direct children, then recurse into each child in
turn and union the results.  The recursion mirrors the source exactly: the
visited set is rebuilt locally by every call and never consulted before
re-expanding a child. -/
def get_all_child_tag_ids (tagTable : List Nat) (edges : List TagSubtag) :
    Nat → Nat → TraversalOutcome
  | 0, _ => .outOfFuel
  | fuel + 1, tagId =>
    if tagTable.contains tagId then
      gactChildren tagTable edges fuel (childIdsOf edges tagId)
        (setUnion [tagId] (childIdsOf edges tagId))
    else .missingTag
termination_by fuel _ => (fuel, 0)

/-- The `for sub_id in subtag_ids:` loop of `get_all_child_tag_ids`:
recurse into each child, accumulating the union; an error from a recursive
call propagates immediately. -/
def gactChildren (tagTable : List Nat) (edges : List TagSubtag) :
    Nat → List Nat → List Nat → TraversalOutcome
  | _, [], acc => .ok acc
  | fuel, s :: rest, acc =>
    match get_all_child_tag_ids tagTable edges fuel s with
    | .ok ids => gactChildren tagTable edges fuel rest (setUnion acc ids)
    | r => r
termination_by fuel l _ => (fuel, l.length + 1)

end

/-- The data of an `Entry` as supplied to `add_entries` before the insert
assigns an id. -/
structure EntryDraft where
  path : String
  suffix : String := ""
  folderId : Nat := 0
deriving Repr, DecidableEq

/-- Ids are assigned to a batch of drafts by the autoincrement sequence,
in list order. -/
def assignIds (startId : Nat) : List EntryDraft → List Entry
  | [] => []
  | d :: ds => ⟨startId, d.path, d.suffix, d.folderId⟩ :: assignIds (startId + 1) ds

/-- Whether a list of strings contains a duplicate. -/
def hasDupStr : List String → Bool
  | [] => false
  | p :: ps => ps.contains p || hasDupStr ps

/-- Whether committing the batch violates the UNIQUE constraint on
`Entry.path`: a draft's path already stored, or two drafts sharing a
path. -/
def pathConflict (L : Library) (items : List EntryDraft) : Bool :=
  items.any (fun d => L.entries.any (fun e => e.path == d.path))
    || hasDupStr (items.map (fun d => d.path))

/-- `Library.add_entries`: add the whole batch in one session and commit;
on `IntegrityError` roll the transaction back and return `[]`, otherwise
return the newly assigned ids. -/
def Library.add_entries (L : Library) (items : List EntryDraft) :
    Library × List Nat :=
  if pathConflict L items then (L, [])
  else
    let newEntries := assignIds L.nextEntryId items
    ({ L with
        entries := L.entries ++ newEntries
        nextEntryId := L.nextEntryId + items.length },
      newEntries.map (fun e => e.id))

/-- The rows of the tags, preferences and value-type tables that
`open_library` bootstraps, keyed as the uniqueness constraints see them:
tags by (reserved id, unique name), preferences and value types by key. -/
structure BootState where
  tags : List (Nat × String) := []
  prefs : List String := []
  valueTypes : List String := []
deriving Repr, DecidableEq

/-- `get_default_tags()` as rows: "Archived" with reserved id
`TAG_ARCHIVED = 0` and "Favorite" with reserved id `TAG_FAVORITE = 1`. -/
def defaultTagRows : List (Nat × String) := [(0, "Archived"), (1, "Favorite")]

/-- Whether committing a batch of tag rows hits a uniqueness violation:
a row clashing with a stored id or name, or two batch rows sharing one. -/
def tagInsertConflict (stored rows : List (Nat × String)) : Bool :=
  rows.any (fun r => stored.any (fun t => t.1 == r.1 || t.2 == r.2))
    || hasDupStr (rows.map (fun r => r.2))
    || !((rows.map (fun r => r.1)).eraseDups.length == rows.length)

/-- One `try: session.add(...); session.commit() except IntegrityError:
rollback` step for a keyed row: insert unless the key exists already. -/
def guardedInsert (l : List String) (k : String) : List String :=
  if l.contains k then l else l ++ [k]

/-- `guardedInsert` lifted to the preferences table of a `BootState`. -/
def insertPref (st : BootState) (k : String) : BootState :=
  { st with prefs := guardedInsert st.prefs k }

/-- `guardedInsert` lifted to the value-type table of a `BootState`. -/
def insertValueType (st : BootState) (k : String) : BootState :=
  { st with valueTypes := guardedInsert st.valueTypes k }

/-- `Library.open_library`, restricted to its bootstrap effect on the
three built-in tables.  `isNew` is whether the storage file was absent.
`prefKeys` stands for the members of the `LibraryPrefs` enum and
`catalogKeys` for the members of the `_FieldID` catalog; both are
modelled from the spec (a fixed list of keys each), since the snapshot
lacks those declarations.  On a new library the two default tags are
committed together (one transaction, rolled back whole on conflict);
preference rows are each committed in their own guarded transaction on
every open; value-type rows likewise but only on a new library.  The
returned flag is `LibraryStatus.success`, which the source always sets to
`True`. -/
def open_library (st : BootState) (isNew : Bool)
    (prefKeys catalogKeys : List String) : BootState × Bool :=
  let st1 :=
    if isNew then
      if tagInsertConflict st.tags defaultTagRows then st
      else { st with tags := st.tags ++ defaultTagRows }
    else st
  let st2 := prefKeys.foldl insertPref st1
  let st3 := if isNew then catalogKeys.foldl insertValueType st2 else st2
  (st3, true)

/-- `enums.FieldTypeEnum`: the field kinds of the value-type registry. -/
inductive FieldTypeEnum
  | TEXT_LINE
  | TEXT_BOX
  | TAGS
  | DATETIME
  | BOOLEAN
deriving Repr, DecidableEq

/-- `models.ValueType`, reduced to key and kind. -/
structure ValueType where
  key : String
  type : FieldTypeEnum
deriving Repr, DecidableEq

/-- One stored field row as `mirror_entry_fields` and
`add_entry_field_type` see it: id, owning entry, value-type key, value,
display position.  The tag side table of tag-box fields is not consulted
by the mirroring logic and is left out. -/
structure FieldRow where
  id : Nat
  entryId : Nat
  typeKey : String
  value : String
  position : Nat := 0
deriving Repr, DecidableEq

/-- The field tables plus the value-type registry and the field-id
autoincrement counter. -/
structure FieldStore where
  valueTypes : List ValueType := []
  fields : List FieldRow := []
  nextFieldId : Nat := 1
deriving Repr, DecidableEq

/-- Insertion into a list kept sorted by field id. -/
def insertByFieldId (fr : FieldRow) : List FieldRow → List FieldRow
  | [] => [fr]
  | x :: xs => if fr.id ≤ x.id then fr :: x :: xs else x :: insertByFieldId fr xs

/-- Sort field rows by id (the `Entry.fields` property sorts the merged
field lists by field id). -/
def sortByFieldId (l : List FieldRow) : List FieldRow :=
  l.foldr insertByFieldId []

/-- The `Entry.fields` property: all fields of one entry, sorted by id. -/
def entry_fields (s : FieldStore) (eid : Nat) : List FieldRow :=
  sortByFieldId (s.fields.filter (fun fr => fr.entryId == eid))

/-- `Library.update_field_position`: per entry, renumber the positions of
the rows sharing the given type key densely from 0 in id order. -/
def update_field_position (s : FieldStore) (typeKey : String)
    (entryIds : List Nat) : FieldStore :=
  entryIds.foldl (fun st eid =>
    let rows := sortByFieldId (st.fields.filter
      (fun fr => fr.entryId == eid && fr.typeKey == typeKey))
    { st with
        fields := st.fields.map (fun fr =>
          if fr.entryId == eid && fr.typeKey == typeKey then
            { fr with position := ((rows.findIdx? (fun r => r.id == fr.id)).getD fr.position) }
          else fr) }) s

/-- `Library.add_entry_field_type` (called with `field_id`/`value`): look
the value type up (a missing key makes `get_value_type` fail, hence
`none`), build one field model, insert it for the given entries — the
source reuses the single model object across the loop, so with several
entry ids only one row persists, owned by the last id — then renumber
positions.  The `BOOLEAN` kind falls into the source's
`NotImplementedError` branch, hence `none`.  For the `TAGS` kind the tag
attachment side table is irrelevant to field-key presence and is not
tracked. -/
def add_entry_field_type (s : FieldStore) (entryIds : List Nat)
    (fieldKey : String) (value : String) : Option FieldStore :=
  match s.valueTypes.find? (fun v => v.key == fieldKey) with
  | none => none
  | some vt =>
    match vt.type with
    | .BOOLEAN => none
    | _ =>
      match entryIds with
      | [] => some s
      | e0 :: rest =>
        let eid := (e0 :: rest).getLastD 0
        let newRow : FieldRow := ⟨s.nextFieldId, eid, vt.key, value, 0⟩
        let s1 : FieldStore :=
          { s with fields := s.fields ++ [newRow], nextFieldId := s.nextFieldId + 1 }
        some (update_field_position s1 vt.key entryIds)

/-- Ordered-dict upsert keyed by type key (`fields[entry_field.type_key] =
entry_field`): replace in place, else append. -/
def upsertAssoc (m : List (String × FieldRow)) (k : String) (v : FieldRow) :
    List (String × FieldRow) :=
  if m.any (fun p => p.1 == k) then
    m.map (fun p => if p.1 == k then (k, v) else p)
  else m ++ [(k, v)]

/-- `Library.mirror_entry_fields`: gather every entry's fields into one
dict keyed by type key (later entries overwrite), compute the set of keys
already on the FIRST entry, then for every entry add each gathered field
whose key is not in that first-entry key set.  An empty entry list fails
on `entries[0]`. -/
def mirror_entry_fields (s : FieldStore) (entryIds : List Nat) :
    Option FieldStore :=
  match entryIds with
  | [] => none
  | e0 :: _ =>
    let existingFields := (entry_fields s e0).map (fun fr => fr.typeKey)
    let fieldsMap := entryIds.foldl (fun m eid =>
      (entry_fields s eid).foldl (fun m2 fr => upsertAssoc m2 fr.typeKey fr) m) []
    entryIds.foldl (fun st? eid =>
      match st? with
      | none => none
      | some st =>
        fieldsMap.foldl (fun st2? kv =>
          match st2? with
          | none => none
          | some st2 =>
            if existingFields.contains kv.1 then some st2
            else add_entry_field_type st2 [eid] kv.1 kv.2.value) (some st))
      (some s)

/-- Success condition of `add_entries`: no draft path is stored already and
no two drafts share a path (the UNIQUE constraint on `Entry.path`). -/
def pathsFresh (L : Library) (items : List EntryDraft) : Prop :=
  (items.map (fun d => d.path)).Nodup
    ∧ ∀ d ∈ items, ∀ e ∈ L.entries, e.path ≠ d.path

/-! Concrete libraries and states used by the per-claim counterexamples and
witnesses. -/

/-- A 3-cycle in the tag table: 1 → 2 → 3 → 1. -/
def cycleEdges : List TagSubtag := [⟨1, 2⟩, ⟨2, 3⟩, ⟨3, 1⟩]

/-- One entry tagged with the tag `foo` (id 5) which carries the two
aliases `a` and `b`. -/
def aliasLib : Library :=
  { entries := [⟨1, "x.txt", "txt", 0⟩]
    tagBoxFields := [⟨1, 1⟩]
    tagFields := [⟨1, 5⟩]
    tags := [⟨5, "foo", none⟩]
    tagAliases := [⟨1, 5, "a"⟩, ⟨2, 5, "b"⟩] }

/-- Twelve untagged entries with ids 1..12. -/
def twelveLib : Library :=
  { entries :=
      [⟨1, "e1", "txt", 0⟩, ⟨2, "e2", "txt", 0⟩, ⟨3, "e3", "txt", 0⟩,
        ⟨4, "e4", "txt", 0⟩, ⟨5, "e5", "txt", 0⟩, ⟨6, "e6", "txt", 0⟩,
        ⟨7, "e7", "txt", 0⟩, ⟨8, "e8", "txt", 0⟩, ⟨9, "e9", "txt", 0⟩,
        ⟨10, "e10", "txt", 0⟩, ⟨11, "e11", "txt", 0⟩, ⟨12, "e12", "txt", 0⟩]
    nextEntryId := 13 }

/-- Two entries, the first tagged `foo` (id 7), the second untagged. -/
def precedenceLib : Library :=
  { entries := [⟨1, "a.txt", "txt", 0⟩, ⟨2, "b.txt", "txt", 0⟩]
    tagBoxFields := [⟨1, 1⟩]
    tagFields := [⟨1, 7⟩]
    tags := [⟨7, "foo", none⟩] }

/-- Tag graph `animal (1) → dog (2)` with one entry tagged ONLY with the
child tag `dog`. -/
def childTaggedLib : Library :=
  { entries := [⟨1, "dog.jpg", "jpg", 0⟩]
    tagBoxFields := [⟨1, 1⟩]
    tagFields := [⟨1, 2⟩]
    tags := [⟨1, "animal", none⟩, ⟨2, "dog", none⟩]
    tagSubtags := [⟨1, 2⟩] }

/-- Tag graph `animal (1) → dog (2)` with one entry tagged ONLY with the
parent tag `animal`. -/
def parentTaggedLib : Library :=
  { entries := [⟨1, "pet.jpg", "jpg", 0⟩]
    tagBoxFields := [⟨1, 1⟩]
    tagFields := [⟨1, 1⟩]
    tags := [⟨1, "animal", none⟩, ⟨2, "dog", none⟩]
    tagSubtags := [⟨1, 2⟩] }

/-- A `.txt` and a `.png` entry under an extension list `{txt}` in
allow-list mode. -/
def allowListLib : Library :=
  { entries := [⟨1, "a.txt", "txt", 0⟩, ⟨2, "b.png", "png", 0⟩]
    extensionList := ["txt"]
    isExcludeList := false }

/-- The same two entries with the same list marked as exclude list. -/
def excludeListLib : Library :=
  { entries := [⟨1, "a.txt", "txt", 0⟩, ⟨2, "b.png", "png", 0⟩]
    extensionList := ["txt"]
    isExcludeList := true }

/-- Field store for the mirroring scenario: the value type `TITLE` is
registered, entry 1 carries a `TITLE` field valued `hello`, entry 2
carries no field at all. -/
def mirrorStore : FieldStore :=
  { valueTypes := [⟨"TITLE", FieldTypeEnum.TEXT_LINE⟩]
    fields := [⟨1, 1, "TITLE", "hello", 0⟩]
    nextFieldId := 2 }

/-- A one-entry library for the `add_entries` witness. -/
def oneEntryLib : Library :=
  { entries := [⟨1, "a.txt", "txt", 0⟩], nextEntryId := 2 }

/-- A one-entry library for the truthiness scenario of `SearchResult`. -/
def oneMatchLib : Library := { entries := [⟨1, "a.txt", "txt", 0⟩] }

/-! General lemmas about the embedding. -/

theorem contains_eq_false_iff {α : Type} [BEq α] [LawfulBEq α]
    {l : List α} {a : α} : l.contains a = false ↔ a ∉ l := by
  rw [← Bool.not_eq_true, List.contains, List.elem_iff]

theorem hasDupStr_eq_false_iff {l : List String} :
    hasDupStr l = false ↔ l.Nodup := by
  induction l with
  | nil => simp [hasDupStr]
  | cons p ps ih =>
    simp only [hasDupStr, Bool.or_eq_false_iff, List.nodup_cons, ih,
      contains_eq_false_iff]

/-- `dedupByIdAux` returns a sublist of its input. -/
theorem dedupByIdAux_sublist (seen : List Nat) (l : List Entry) :
    List.Sublist (dedupByIdAux seen l) l := by
  induction l generalizing seen with
  | nil => simp [dedupByIdAux]
  | cons e rest ih =>
    rw [dedupByIdAux]
    by_cases h : seen.contains e.id = true
    · simp only [h, if_true]
      exact (ih seen).cons e
    · simp only [Bool.not_eq_true] at h
      simp only [h, Bool.false_eq_true, if_false]
      exact (ih (e.id :: seen)).cons₂ e

/-- On a list with pairwise distinct entry ids none of which was seen,
deduplication is the identity. -/
theorem dedupByIdAux_eq_self (seen : List Nat) (l : List Entry)
    (hseen : ∀ e ∈ l, e.id ∉ seen) (hnd : (l.map (fun e => e.id)).Nodup) :
    dedupByIdAux seen l = l := by
  induction l generalizing seen with
  | nil => rfl
  | cons e rest ih =>
    rw [dedupByIdAux]
    have h1 : seen.contains e.id = false :=
      contains_eq_false_iff.mpr (hseen e (List.mem_cons_self e rest))
    simp only [h1, Bool.false_eq_true, if_false, List.cons.injEq, true_and]
    simp only [List.map_cons, List.nodup_cons, List.mem_map] at hnd
    refine ih (e.id :: seen) (fun x hx => ?_) hnd.2
    intro hmem
    rcases List.mem_cons.mp hmem with h | h
    · exact hnd.1 ⟨x, hx, h⟩
    · exact hseen x (List.mem_cons_of_mem e hx) h

/-- The ids of the output of `dedupByIdAux` avoid the seen set and are
pairwise distinct. -/
theorem dedupByIdAux_nodup (seen : List Nat) (l : List Entry) :
    (∀ e ∈ dedupByIdAux seen l, e.id ∉ seen)
      ∧ (dedupByIdAux seen l).Pairwise (fun a b => a.id ≠ b.id) := by
  induction l generalizing seen with
  | nil => exact ⟨fun e h => absurd h (List.not_mem_nil e), List.Pairwise.nil⟩
  | cons e rest ih =>
    rw [dedupByIdAux]
    by_cases h : seen.contains e.id = true
    · simpa only [h, if_true] using ih seen
    · simp only [Bool.not_eq_true] at h
      simp only [h, Bool.false_eq_true, if_false]
      obtain ⟨ihseen, ihpw⟩ := ih (e.id :: seen)
      constructor
      · intro x hx hmem
        rcases List.mem_cons.mp hx with rfl | hx'
        · exact (contains_eq_false_iff.mp h) hmem
        · exact ihseen x hx' (List.mem_cons_of_mem _ hmem)
      · refine List.Pairwise.cons (fun x hx => ?_) ihpw
        intro heq
        exact ihseen x hx (heq ▸ List.mem_cons_self e.id seen)

/-- Replicating each element 0 or 1 times according to a boolean is
filtering. -/
theorem flatMap_replicate_ite (g : Entry → Bool) (l : List Entry) :
    (l.flatMap fun e => List.replicate (if g e then 1 else 0) e) = l.filter g := by
  induction l with
  | nil => rfl
  | cons e rest ih =>
    rw [List.flatMap_cons, List.filter_cons, ih]
    by_cases h : g e = true
    · simp [h]
    · simp only [Bool.not_eq_true] at h
      simp [h]

/-- Members of the replicated row list come from the underlying entry
list. -/
theorem mem_flatMap_replicate {k : Entry → Nat} {l : List Entry} {x : Entry}
    (hx : x ∈ l.flatMap fun e => List.replicate (k e) e) : x ∈ l := by
  obtain ⟨e, he, hxe⟩ := List.mem_flatMap.mp hx
  exact (List.eq_of_mem_replicate hxe) ▸ he

/-- Strictly increasing entry ids survive row replication as a weakly
increasing row list. -/
theorem pairwise_flatMap_replicate (k : Entry → Nat) (l : List Entry)
    (h : l.Pairwise (fun a b => a.id < b.id)) :
    (l.flatMap fun e => List.replicate (k e) e).Pairwise
      (fun a b => a.id ≤ b.id) := by
  induction l with
  | nil => exact List.Pairwise.nil
  | cons e rest ih =>
    rw [List.flatMap_cons]
    rw [List.pairwise_cons] at h
    rw [List.pairwise_append]
    refine ⟨?_, ih h.2, ?_⟩
    · rw [List.pairwise_replicate]
      right
      exact Nat.le_refl e.id
    · intro a ha b hb
      have ha' : a = e := List.eq_of_mem_replicate ha
      have hb' : b ∈ rest := mem_flatMap_replicate hb
      exact ha' ▸ Nat.le_of_lt (h.1 b hb')

/-- On the 3-cycle 1 → 2 → 3 → 1 the traversal of each of the three tags
exhausts any amount of fuel: the recursion of the source never stops. -/
theorem cycle_traversal_aux (fuel : Nat) :
    get_all_child_tag_ids [1, 2, 3] cycleEdges fuel 1 = TraversalOutcome.outOfFuel
    ∧ get_all_child_tag_ids [1, 2, 3] cycleEdges fuel 2 = TraversalOutcome.outOfFuel
    ∧ get_all_child_tag_ids [1, 2, 3] cycleEdges fuel 3 = TraversalOutcome.outOfFuel := by
  induction fuel with
  | zero =>
    refine ⟨?_, ?_, ?_⟩ <;> simp [get_all_child_tag_ids]
  | succ n ih =>
    obtain ⟨h1, h2, h3⟩ := ih
    have c1 : childIdsOf cycleEdges 1 = [2] := by decide
    have c2 : childIdsOf cycleEdges 2 = [3] := by decide
    have c3 : childIdsOf cycleEdges 3 = [1] := by decide
    refine ⟨?_, ?_, ?_⟩
    · rw [get_all_child_tag_ids, c1]
      simp [gactChildren, h2]
    · rw [get_all_child_tag_ids, c2]
      simp [gactChildren, h3]
    · rw [get_all_child_tag_ids, c3]
      simp [gactChildren, h1]

/-- C1: the claimed statement — that `get_all_child_tag_ids` is
cycle-guarded — fails on the code: on the stored cyclic graph with edges
1 → 2, 2 → 3, 3 → 1 (all three tags present in the tag table) the
traversal started at tag 1 recurses forever; in the fuel embedding it
exhausts every finite amount of fuel instead of ever producing the set
`{1, 2, 3}`. -/
theorem C1_cycle_traversal_diverges :
    ∀ fuel : Nat,
      get_all_child_tag_ids [1, 2, 3] cycleEdges fuel 1 = TraversalOutcome.outOfFuel := by
  intro fuel
  exact (cycle_traversal_aux fuel).1

/-- C3 counterexample: with both `id` and `tag` set, `search_library` runs
the `tag` branch, not the exact Entry-id lookup — the result differs from
the id-only query. -/
theorem C3_counterexample_tag_beats_id :
    (precedenceLib.search_library { id := some 2, tag := some "foo" }).items
        = [⟨1, "a.txt", "txt", 0⟩]
    ∧ (precedenceLib.search_library { id := some 2 }).items
        = [⟨2, "b.txt", "txt", 0⟩]
    ∧ (precedenceLib.search_library { id := some 2, tag := some "foo" }).items
        ≠ (precedenceLib.search_library { id := some 2 }).items := by
  refine ⟨?_, ?_, ?_⟩ <;> decide

/-- C3 amended: the primary predicate is chosen first-match-wins in the
order `tag`, `tag_id`, `id`, `name`, `path`; consequently whenever neither
`tag` nor `tag_id` is active and `id` is truthy, the result is the exact
Entry-id lookup — the `name`, `path` and folder fields are ignored. -/
theorem C3_amended_precedence (L : Library) (f : FilterState)
    (htag : optStrTruthy f.tag = false) (htid : f.tag_id = none)
    (hid : optNatTruthy f.id = true) :
    L.search_library f
      = L.search_library
          { page_index := f.page_index, page_size := f.page_size, id := f.id } := by
  have e1 : optStrTruthy (none : Option String) = false := rfl
  simp only [Library.search_library, searchRows, entryRowCount, primaryRowCount,
    secondaryOk, FilterState.limit, FilterState.offset, htag, htid, hid, e1,
    Option.isSome_none, Bool.false_eq_true, if_false, if_true]

/-- Witness for C3: a request with `id = 2` and `name = "a"` both set is
answered by the exact id lookup. -/
theorem C3_amended_precedence_witness :
    optStrTruthy (none : Option String) = false
    ∧ optNatTruthy (some 2) = true
    ∧ precedenceLib.search_library { id := some 2, name := some "a" }
        = precedenceLib.search_library
            { page_index := 0, page_size := 100, id := some 2 } :=
  ⟨rfl, rfl,
    C3_amended_precedence precedenceLib { id := some 2, name := some "a" }
      rfl rfl rfl⟩

/-- C6: the claimed mirroring — that entry 2, lacking the `TITLE` field
present on entry 1, gains it — fails on the code: `mirror_entry_fields`
computes the key set of the FIRST entry and skips every key in it for all
entries, so the call leaves the store completely unchanged and entry 2
still has no fields. -/
theorem C6_mirror_leaves_store_unchanged :
    entry_fields mirrorStore 1 = [⟨1, 1, "TITLE", "hello", 0⟩]
    ∧ entry_fields mirrorStore 2 = []
    ∧ mirror_entry_fields mirrorStore [1, 2] = some mirrorStore := by
  refine ⟨?_, ?_, ?_⟩ <;> decide

/-- C10: `SearchResult.__bool__` is true exactly when `total_count > 0`
and `__len__` is the length of the page's item list; on a request for a
page past the last one the result is truthy with an empty item list. -/
theorem C10_searchresult_truthiness :
    (∀ (L : Library) (f : FilterState),
        ((L.search_library f).toBool = true ↔ 0 < (L.search_library f).total_count)
        ∧ (L.search_library f).pyLen = (L.search_library f).items.length)
    ∧ (oneMatchLib.search_library { page_index := 5, page_size := 20 }).toBool = true
    ∧ (oneMatchLib.search_library { page_index := 5, page_size := 20 }).items = []
    ∧ (oneMatchLib.search_library { page_index := 5, page_size := 20 }).total_count = 1
    ∧ (oneMatchLib.search_library { page_index := 5, page_size := 20 }).pyLen = 0 := by
  refine ⟨fun L f => ⟨?_, rfl⟩, ?_, ?_, ?_, ?_⟩
  · simp [SearchResult.toBool]
  all_goals decide

/-- The `IntegrityError` condition of `add_entries` is exactly the
negation of path freshness. -/
theorem pathConflict_eq_false_iff (L : Library) (items : List EntryDraft) :
    pathConflict L items = false ↔ pathsFresh L items := by
  rw [pathConflict, Bool.or_eq_false_iff, hasDupStr_eq_false_iff,
    List.any_eq_false]
  unfold pathsFresh
  constructor
  · rintro ⟨hfr, hnd⟩
    refine ⟨hnd, fun d hd e he => ?_⟩
    have h2 := hfr d hd
    simp only [List.any_eq_true, not_exists] at h2
    intro heq
    exact h2 e ⟨he, by simp [heq]⟩
  · rintro ⟨hnd, hfr⟩
    refine ⟨fun d hd => ?_, hnd⟩
    simp only [List.any_eq_true, not_exists]
    rintro e ⟨he, hbe⟩
    exact hfr d hd e he (by simpa using hbe)

/-- The batch keeps its length through id assignment. -/
theorem assignIds_length (startId : Nat) (items : List EntryDraft) :
    (assignIds startId items).length = items.length := by
  induction items generalizing startId with
  | nil => rfl
  | cons d ds ih =>
    simp [assignIds, ih]

/-- C7: `add_entries` is atomic: for a non-empty batch, if any draft path
clashes (with a stored entry or within the batch) the library is returned
unchanged with no ids; otherwise every draft is appended with its
sequentially assigned id and exactly those ids are returned, one per
draft. -/
theorem C7_add_entries_atomic (L : Library) (items : List EntryDraft)
    (_hne : items ≠ []) :
    (¬ pathsFresh L items → L.add_entries items = (L, []))
    ∧ (pathsFresh L items →
        (L.add_entries items).1.entries = L.entries ++ assignIds L.nextEntryId items
        ∧ (L.add_entries items).2 = (assignIds L.nextEntryId items).map (fun e => e.id)
        ∧ (L.add_entries items).2.length = items.length) := by
  constructor
  · intro h
    have hc : pathConflict L items = true := by
      cases hb : pathConflict L items with
      | false => exact absurd ((pathConflict_eq_false_iff L items).mp hb) h
      | true => rfl
    simp [Library.add_entries, hc]
  · intro h
    have hc : pathConflict L items = false :=
      (pathConflict_eq_false_iff L items).mpr h
    simp [Library.add_entries, hc, assignIds_length]

/-- Witness for C7: one fresh draft is appended with id 2 and the ids
`[2]` are returned; the same draft twice clashes and changes nothing. -/
theorem C7_add_entries_atomic_witness :
    (([⟨"b.txt", "txt", 0⟩] : List EntryDraft) ≠ []
      ∧ pathsFresh oneEntryLib [⟨"b.txt", "txt", 0⟩]
      ∧ (oneEntryLib.add_entries [⟨"b.txt", "txt", 0⟩]).1.entries
          = oneEntryLib.entries ++ assignIds 2 [⟨"b.txt", "txt", 0⟩]
      ∧ (oneEntryLib.add_entries [⟨"b.txt", "txt", 0⟩]).2
          = (assignIds 2 [⟨"b.txt", "txt", 0⟩]).map (fun e => e.id))
    ∧ (¬ pathsFresh oneEntryLib [⟨"a.txt", "txt", 0⟩]
      ∧ oneEntryLib.add_entries [⟨"a.txt", "txt", 0⟩] = (oneEntryLib, [])) := by
  have hfresh : pathsFresh oneEntryLib [⟨"b.txt", "txt", 0⟩] := by
    refine ⟨by decide, ?_⟩
    intro d hd e he
    fin_cases hd
    fin_cases he
    decide
  have hstale : ¬ pathsFresh oneEntryLib [⟨"a.txt", "txt", 0⟩] := by
    rintro ⟨-, hfr⟩
    exact hfr ⟨"a.txt", "txt", 0⟩ (by simp) ⟨1, "a.txt", "txt", 0⟩ (by simp [oneEntryLib]) rfl
  obtain ⟨h1, h2, h3⟩ :=
    (C7_add_entries_atomic oneEntryLib [⟨"b.txt", "txt", 0⟩] (by decide)).2 hfresh
  refine ⟨⟨by decide, hfresh, h1, h2⟩, hstale, ?_⟩
  exact (C7_add_entries_atomic oneEntryLib [⟨"a.txt", "txt", 0⟩] (by decide)).1 hstale

/-- C5: unless `id` is truthy the extension filter applies — in exclude
mode an entry matches iff, besides the primary predicate and the folder
scope, its suffix is NOT in the list; in allow mode (non-empty list not
marked exclude) iff its suffix IS in the list; an empty list filters
nothing — while a truthy `id` bypasses the extension list and the folder
sets entirely. -/
theorem C5_extension_filter_modes (L : Library) (f : FilterState) :
    ((optNatTruthy f.id = false → L.isExcludeList = true →
      ∀ e : Entry,
        (!(entryRowCount L f e == 0))
          = (!(primaryRowCount L f e == 0)
              && !(L.extensionList.contains e.suffix) && folderOk f e))
    ∧ (optNatTruthy f.id = false → L.isExcludeList = false →
        L.extensionList ≠ [] →
      ∀ e : Entry,
        (!(entryRowCount L f e == 0))
          = (!(primaryRowCount L f e == 0)
              && L.extensionList.contains e.suffix && folderOk f e))
    ∧ (optNatTruthy f.id = false → L.extensionList = [] →
      ∀ e : Entry,
        (!(entryRowCount L f e == 0))
          = (!(primaryRowCount L f e == 0) && folderOk f e)))
    ∧ (optNatTruthy f.id = true →
      L.search_library f
        = Library.search_library { L with extensionList := [], isExcludeList := false }
            { f with include_folders := [], exclude_folders := [] }) := by
  have hrow : ∀ e : Entry, optNatTruthy f.id = false →
      (!(entryRowCount L f e == 0))
        = (!(primaryRowCount L f e == 0) && (extensionOk L e && folderOk f e)) := by
    intro e hid
    rw [entryRowCount, secondaryOk, hid]
    simp only [Bool.false_eq_true, if_false]
    by_cases hs : (extensionOk L e && folderOk f e) = true
    · simp [hs]
    · simp only [Bool.not_eq_true] at hs
      simp [hs]
  refine ⟨⟨?_, ?_, ?_⟩, ?_⟩
  · intro hid hex e
    have hext : extensionOk L e = !(L.extensionList.contains e.suffix) := by
      rw [extensionOk, hex]
      cases hl : L.extensionList with
      | nil => simp [List.contains]
      | cons a as => simp
    rw [hrow e hid, hext, Bool.and_assoc]
  · intro hid hex hne e
    have hext : extensionOk L e = L.extensionList.contains e.suffix := by
      rw [extensionOk, hex]
      cases hl : L.extensionList with
      | nil => exact absurd hl hne
      | cons a as => simp
    rw [hrow e hid, hext, Bool.and_assoc]
  · intro hid hemp e
    have hext : extensionOk L e = true := by
      rw [extensionOk, hemp]
      simp
    rw [hrow e hid, hext]
    simp
  · intro hid
    have hq1 : ∀ (q : String) (e : Entry),
        tagQueryRowCount { L with extensionList := [], isExcludeList := false } q e
          = tagQueryRowCount L q e := fun _ _ => rfl
    have hq2 : ∀ (t : Nat) (e : Entry),
        tagIdQueryRowCount { L with extensionList := [], isExcludeList := false } t e
          = tagIdQueryRowCount L t e := fun _ _ => rfl
    simp only [Library.search_library, searchRows, entryRowCount, secondaryOk,
      primaryRowCount, FilterState.limit, FilterState.offset, hid, if_true,
      hq1, hq2]

/-- Witness for C5: on concrete allow-list and exclude-list libraries the
match condition reduces as stated, and an id-truthy request is unaffected
by stripping the extension list and folder sets. -/
theorem C5_extension_filter_modes_witness :
    (optNatTruthy (none : Option Nat) = false
      ∧ excludeListLib.isExcludeList = true
      ∧ (!(entryRowCount excludeListLib {} ⟨1, "a.txt", "txt", 0⟩ == 0))
          = (!(primaryRowCount excludeListLib {} ⟨1, "a.txt", "txt", 0⟩ == 0)
              && !(excludeListLib.extensionList.contains "txt")
              && folderOk {} ⟨1, "a.txt", "txt", 0⟩))
    ∧ (allowListLib.isExcludeList = false
      ∧ allowListLib.extensionList ≠ []
      ∧ (!(entryRowCount allowListLib {} ⟨2, "b.png", "png", 0⟩ == 0))
          = (!(primaryRowCount allowListLib {} ⟨2, "b.png", "png", 0⟩ == 0)
              && allowListLib.extensionList.contains "png"
              && folderOk {} ⟨2, "b.png", "png", 0⟩))
    ∧ (optNatTruthy (some 1) = true
      ∧ allowListLib.search_library { id := some 1, exclude_folders := [3] }
          = Library.search_library
              { allowListLib with extensionList := [], isExcludeList := false }
              { ({ id := some 1, exclude_folders := [3] } : FilterState) with
                  include_folders := [], exclude_folders := [] }) :=
  ⟨⟨rfl, rfl,
      (C5_extension_filter_modes excludeListLib {}).1.1 rfl rfl ⟨1, "a.txt", "txt", 0⟩⟩,
    ⟨rfl, by decide,
      (C5_extension_filter_modes allowListLib {}).1.2.1 rfl rfl (by decide)
        ⟨2, "b.png", "png", 0⟩⟩,
    rfl,
    (C5_extension_filter_modes allowListLib
        { id := some 1, exclude_folders := [3] }).2 rfl⟩

/-- A LEFT OUTER JOIN expansion is never empty. -/
theorem leftOuter_exists_mem {α : Type} (l : List α) :
    ∃ x, x ∈ leftOuter l := by
  cases l with
  | nil => exact ⟨none, List.mem_singleton.mpr rfl⟩
  | cons a as => exact ⟨some a, List.mem_map_of_mem some (List.mem_cons_self a as)⟩

/-- A member of the joined list appears (wrapped in `some`) in its LEFT
OUTER JOIN expansion. -/
theorem some_mem_leftOuter {α : Type} {l : List α} {a : α} (h : a ∈ l) :
    some a ∈ leftOuter l := by
  have hne : l.isEmpty = false := by
    cases l with
    | nil => cases h
    | cons x xs => rfl
  rw [leftOuter, hne]
  simpa using List.mem_map_of_mem some h

/-- C4 counterexample: in the stored graph `animal (1) → dog (2)` the
entry tagged only with the child tag `dog` is NOT returned by
`search_library` with `tag = "animal"` — the engine joins to the
SUBTAGS of the entry's tags, so a parent-name query does not reach
child-tagged entries. -/
theorem C4_counterexample_child_not_found_by_parent :
    (⟨1, 2⟩ : TagSubtag) ∈ childTaggedLib.tagSubtags
    ∧ (⟨1, "animal", none⟩ : Tag) ∈ childTaggedLib.tags
    ∧ (⟨1, "dog.jpg", "jpg", 0⟩ : Entry) ∈ childTaggedLib.entries
    ∧ TagField.mk 1 2 ∈ childTaggedLib.tagFields
    ∧ childTaggedLib.search_library { tag := some "animal" } = ⟨0, []⟩ := by
  refine ⟨?_, ?_, ?_, ?_, ?_⟩ <;> decide

/-- C4 amended: the tag predicate matches an entry's tags by name,
shorthand, alias, or the NAME of any of the tag's subtags (children), so
the transitivity runs from parent to child name: an entry carrying a tag
one of whose subtags' names matches the query is matched, and in
particular the entry tagged with the parent `animal` (which has subtag
`dog`) is returned by `tag = "dog"`. -/
theorem C4_amended_subtag_direction :
    (∀ (L : Library) (q : String) (e : Entry) (fld : TagBoxField) (t s : Tag),
      fld ∈ L.tagBoxFields → fld.entryId = e.id → t ∈ tagsOfField L fld.id →
      s ∈ subtagsOfTag L t.id → sqlIlike q s.name = true →
      (!(tagQueryRowCount L q e == 0)) = true)
    ∧ parentTaggedLib.search_library { tag := some "dog" }
        = ⟨1, [⟨1, "pet.jpg", "jpg", 0⟩]⟩ := by
  constructor
  · intro L q e fld t s hfld hfeid ht hs hq
    obtain ⟨al, hal⟩ := leftOuter_exists_mem (aliasesOfTag L t.id)
    have hcond : tagRowCond q t al (some s) = true := by
      simp [tagRowCond, hq]
    have h1 : () ∈ (leftOuter (subtagsOfTag L t.id)).filterMap
        (fun st => if tagRowCond q t al st then some () else none) :=
      List.mem_filterMap.mpr ⟨some s, some_mem_leftOuter hs, by rw [hcond]; rfl⟩
    have h2 : () ∈ (leftOuter (aliasesOfTag L t.id)).flatMap
        (fun al2 => (leftOuter (subtagsOfTag L t.id)).filterMap
          (fun st => if tagRowCond q t al2 st then some () else none)) := by
      refine List.mem_flatMap.mpr ⟨al, hal, ?_⟩
      exact h1
    have h3 : () ∈ (tagsOfField L fld.id).flatMap (fun t2 =>
        (leftOuter (aliasesOfTag L t2.id)).flatMap
          (fun al2 => (leftOuter (subtagsOfTag L t2.id)).filterMap
            (fun st => if tagRowCond q t2 al2 st then some () else none))) :=
      List.mem_flatMap.mpr ⟨t, ht, h2⟩
    have h4 : () ∈ (L.tagBoxFields.filter (fun f2 => f2.entryId == e.id)).flatMap
        (fun f2 => (tagsOfField L f2.id).flatMap (fun t2 =>
          (leftOuter (aliasesOfTag L t2.id)).flatMap
            (fun al2 => (leftOuter (subtagsOfTag L t2.id)).filterMap
              (fun st => if tagRowCond q t2 al2 st then some () else none)))) := by
      refine List.mem_flatMap.mpr ⟨fld, List.mem_filter.mpr ⟨hfld, ?_⟩, h3⟩
      simp [hfeid]
    have hpos : 0 < tagQueryRowCount L q e := by
      rw [tagQueryRowCount]
      exact List.length_pos_of_mem h4
    have hne0 : tagQueryRowCount L q e ≠ 0 := Nat.pos_iff_ne_zero.mp hpos
    simp [hne0]
  · decide

/-- Witness for C4: the entry tagged with the parent `animal` is matched
by the query `dog` through the subtag join. -/
theorem C4_amended_subtag_direction_witness :
    (!(tagQueryRowCount parentTaggedLib "dog" ⟨1, "pet.jpg", "jpg", 0⟩ == 0)) = true :=
  C4_amended_subtag_direction.1 parentTaggedLib "dog" ⟨1, "pet.jpg", "jpg", 0⟩
    ⟨1, 1⟩ ⟨1, "animal", none⟩ ⟨2, "dog", none⟩
    (by decide) rfl (by decide) (by decide) (by decide)

/-- Without a `tag` or `tag_id` predicate every entry contributes at most
one row to the statement. -/
theorem primaryRowCount_le_one (L : Library) (f : FilterState) (e : Entry)
    (htag : optStrTruthy f.tag = false) (htid : f.tag_id = none) :
    primaryRowCount L f e ≤ 1 := by
  rw [primaryRowCount, htag, htid]
  simp only [Bool.false_eq_true, if_false, Option.isSome_none]
  repeat' split
  all_goals omega

/-- Without a `tag` or `tag_id` predicate the row count of an entry is the
indicator of the entry-level match condition. -/
theorem entryRowCount_eq_ite (L : Library) (f : FilterState) (e : Entry)
    (htag : optStrTruthy f.tag = false) (htid : f.tag_id = none) :
    entryRowCount L f e
      = if (!(primaryRowCount L f e == 0) && secondaryOk L f e) then 1 else 0 := by
  have hle := primaryRowCount_le_one L f e htag htid
  rcases Nat.le_one_iff_eq_zero_or_eq_one.mp hle with h | h <;>
    cases hs : secondaryOk L f e <;>
      simp [entryRowCount, h, hs]

/-- Without a `tag` or `tag_id` predicate the statement's rows are exactly
the matching entries, one row each. -/
theorem searchRows_eq_filter (L : Library) (f : FilterState)
    (htag : optStrTruthy f.tag = false) (htid : f.tag_id = none) :
    searchRows L f = specMatchingEntries L f := by
  rw [searchRows, specMatchingEntries]
  have hfun : (fun e => List.replicate (entryRowCount L f e) e)
      = fun e => List.replicate
          (if (!(primaryRowCount L f e == 0) && secondaryOk L f e) then 1 else 0) e := by
    funext e
    rw [entryRowCount_eq_ite L f e htag htid]
  rw [hfun, flatMap_replicate_ite]

/-- C2 amended: when the active primary predicate is not tag-based (no
truthy `tag`, no `tag_id`) the contract holds as claimed: `total_count`
is the number of matching entries ignoring pagination and `items` is the
slice of the full match list of length at most `page_size` starting at
`page_size * page_index`.  (With a tag-based predicate the source counts
join rows, not entries — see the counterexample.) -/
theorem C2_amended_pagination (L : Library) (f : FilterState)
    (hnd : (L.entries.map (fun e => e.id)).Nodup)
    (htag : optStrTruthy f.tag = false) (htid : f.tag_id = none) :
    (L.search_library f).total_count = (specMatchingEntries L f).length
    ∧ (L.search_library f).items
        = ((specMatchingEntries L f).drop (f.page_size * f.page_index)).take f.page_size
    ∧ (L.search_library f).items.length ≤ f.page_size := by
  have hrows := searchRows_eq_filter L f htag htid
  have hsub : List.Sublist
      (((specMatchingEntries L f).drop (f.page_size * f.page_index)).take f.page_size)
      L.entries := by
    refine (List.take_sublist _ _).trans ?_
    refine (List.drop_sublist _ _).trans ?_
    exact List.filter_sublist L.entries
  have hnd2 : (((((specMatchingEntries L f).drop
      (f.page_size * f.page_index)).take f.page_size)).map (fun e => e.id)).Nodup :=
    hnd.sublist (hsub.map (fun e => e.id))
  have hitems : (L.search_library f).items
      = ((specMatchingEntries L f).drop (f.page_size * f.page_index)).take f.page_size := by
    simp only [Library.search_library, FilterState.limit, FilterState.offset, hrows]
    exact dedupByIdAux_eq_self [] _ (fun e _ h => (List.not_mem_nil e.id) h) hnd2
  refine ⟨?_, hitems, ?_⟩
  · simp only [Library.search_library, hrows]
  · rw [hitems]
    exact List.length_take_le _ _

/-- C2 counterexample: with a tag predicate the outer joins multiply rows —
the single matching entry of `aliasLib` carries the tag `foo` with two
aliases, so the statement has two rows and `total_count` is 2, not the
number of matching entries, which is 1. -/
theorem C2_counterexample_join_overcount :
    (aliasLib.search_library { tag := some "foo" }).total_count = 2
    ∧ (specMatchingEntries aliasLib { tag := some "foo" }).length = 1
    ∧ (aliasLib.search_library { tag := some "foo" }).total_count
        ≠ (specMatchingEntries aliasLib { tag := some "foo" }).length := by
  refine ⟨?_, ?_, ?_⟩ <;> decide

/-- Witness for C2: on twelve matching entries with `page_size = 5`,
pages 0 and 1 satisfy the amended contract. -/
theorem C2_amended_pagination_witness :
    (twelveLib.entries.map (fun e => e.id)).Nodup
    ∧ ((twelveLib.search_library { page_size := 5 }).total_count
          = (specMatchingEntries twelveLib { page_size := 5 }).length
        ∧ (twelveLib.search_library { page_size := 5 }).items
            = ((specMatchingEntries twelveLib { page_size := 5 }).drop (5 * 0)).take 5
        ∧ (twelveLib.search_library { page_size := 5 }).items.length ≤ 5)
    ∧ ((twelveLib.search_library { page_index := 1, page_size := 5 }).total_count
          = (specMatchingEntries twelveLib { page_index := 1, page_size := 5 }).length
        ∧ (twelveLib.search_library { page_index := 1, page_size := 5 }).items
            = ((specMatchingEntries twelveLib
                { page_index := 1, page_size := 5 }).drop (5 * 1)).take 5
        ∧ (twelveLib.search_library { page_index := 1, page_size := 5 }).items.length ≤ 5) :=
  ⟨by decide,
    C2_amended_pagination twelveLib { page_size := 5 } (by decide) rfl rfl,
    C2_amended_pagination twelveLib { page_index := 1, page_size := 5 } (by decide) rfl rfl⟩

/-- C9: `search_library` is deterministic — as a pure function of the
library state and the filter, two calls on the same arguments agree — and
when the entry table is stored in ascending id order (as the SQLite rowid
scan returns it) the page items come back strictly ascending by Entry id,
so repeated requests for a page always yield the same items. -/
theorem C9_deterministic_ordered_pages (L : Library) (f : FilterState)
    (hord : L.entries.Pairwise (fun a b => a.id < b.id)) :
    L.search_library f = L.search_library f
    ∧ (L.search_library f).items.Pairwise (fun a b => a.id < b.id) := by
  refine ⟨rfl, ?_⟩
  have hrows : (searchRows L f).Pairwise (fun a b => a.id ≤ b.id) :=
    pairwise_flatMap_replicate _ _ hord
  have hsub : List.Sublist (((searchRows L f).drop f.offset).take f.limit)
      (searchRows L f) :=
    (List.take_sublist _ _).trans (List.drop_sublist _ _)
  have hpage : (((searchRows L f).drop f.offset).take f.limit).Pairwise
      (fun a b => a.id ≤ b.id) := hrows.sublist hsub
  have hitems_le : (L.search_library f).items.Pairwise (fun a b => a.id ≤ b.id) :=
    hpage.sublist (dedupByIdAux_sublist [] _)
  have hitems_ne : (L.search_library f).items.Pairwise (fun a b => a.id ≠ b.id) :=
    (dedupByIdAux_nodup [] _).2
  exact List.Pairwise.imp (fun h => Nat.lt_of_le_of_ne h.1 h.2)
    (hitems_le.and hitems_ne)

/-- Witness for C9: the twelve-entry library is stored in ascending id
order and its first page comes back strictly ascending. -/
theorem C9_deterministic_ordered_pages_witness :
    twelveLib.entries.Pairwise (fun a b => a.id < b.id)
    ∧ (twelveLib.search_library { page_size := 5 }
          = twelveLib.search_library { page_size := 5 }
        ∧ (twelveLib.search_library { page_size := 5 }).items.Pairwise
            (fun a b => a.id < b.id)) :=
  ⟨by decide, C9_deterministic_ordered_pages twelveLib { page_size := 5 } (by decide)⟩

theorem contains_eq_true_iff {α : Type} [BEq α] [LawfulBEq α]
    {l : List α} {a : α} : l.contains a = true ↔ a ∈ l := by
  rw [List.contains, List.elem_iff]

/-- Membership in a list survives any sequence of guarded inserts. -/
theorem mem_foldl_guardedInsert (ks : List String) (l : List String) (a : String)
    (h : a ∈ l) : a ∈ ks.foldl guardedInsert l := by
  induction ks generalizing l with
  | nil => exact h
  | cons k ks ih =>
    rw [List.foldl_cons]
    refine ih _ ?_
    rw [guardedInsert]
    split
    · exact h
    · exact List.mem_append_left _ h

/-- Every inserted key is present after the fold of guarded inserts. -/
theorem mem_foldl_guardedInsert_self (ks : List String) (l : List String)
    (k : String) (h : k ∈ ks) : k ∈ ks.foldl guardedInsert l := by
  induction ks generalizing l with
  | nil => cases h
  | cons k2 ks ih =>
    rw [List.foldl_cons]
    rcases List.mem_cons.mp h with rfl | h2
    · refine mem_foldl_guardedInsert _ _ _ ?_
      rw [guardedInsert]
      split
      · next hc => exact contains_eq_true_iff.mp hc
      · exact List.mem_append_right _ (List.mem_singleton.mpr rfl)
    · exact ih _ h2

/-- Guarded inserts of already-present keys change nothing. -/
theorem foldl_guardedInsert_eq_self (ks l : List String)
    (h : ∀ k ∈ ks, k ∈ l) : ks.foldl guardedInsert l = l := by
  induction ks with
  | nil => rfl
  | cons k ks ih =>
    rw [List.foldl_cons, guardedInsert,
      if_pos (contains_eq_true_iff.mpr (h k (List.mem_cons_self k ks)))]
    exact ih (fun k2 h2 => h k2 (List.mem_cons_of_mem k h2))

/-- Guarded inserts keep the list duplicate-free. -/
theorem nodup_foldl_guardedInsert (ks l : List String) (h : l.Nodup) :
    (ks.foldl guardedInsert l).Nodup := by
  induction ks generalizing l with
  | nil => exact h
  | cons k ks ih =>
    rw [List.foldl_cons]
    refine ih _ ?_
    rw [guardedInsert]
    split
    · exact h
    · next hc =>
      have hk : k ∉ l := contains_eq_false_iff.mp (by simpa using hc)
      refine List.Nodup.append h (List.nodup_singleton k) ?_
      intro a ha hb
      exact hk ((List.mem_singleton.mp hb) ▸ ha)

/-- The preference loop only touches the preference table. -/
theorem foldl_insertPref_split (ks : List String) (st : BootState) :
    ks.foldl insertPref st = { st with prefs := ks.foldl guardedInsert st.prefs } := by
  induction ks generalizing st with
  | nil => rfl
  | cons k ks ih =>
    rw [List.foldl_cons, ih, List.foldl_cons]
    rfl

/-- The value-type loop only touches the value-type table. -/
theorem foldl_insertValueType_split (ks : List String) (st : BootState) :
    ks.foldl insertValueType st
      = { st with valueTypes := ks.foldl guardedInsert st.valueTypes } := by
  induction ks generalizing st with
  | nil => rfl
  | cons k ks ih =>
    rw [List.foldl_cons, ih, List.foldl_cons]
    rfl

/-- C8: opening an already-initialized library a second time is
idempotent — the second open succeeds (every bootstrap conflict is
swallowed) and returns exactly the state the first open produced, whose
built-in tag ids and names, preference keys and value-type keys are all
duplicate-free. -/
theorem C8_idempotent_bootstrap (prefKeys catalogKeys : List String) :
    open_library (open_library ⟨[], [], []⟩ true prefKeys catalogKeys).1 false
        prefKeys catalogKeys
      = ((open_library ⟨[], [], []⟩ true prefKeys catalogKeys).1, true)
    ∧ ((open_library ⟨[], [], []⟩ true prefKeys catalogKeys).1.tags.map Prod.fst).Nodup
    ∧ ((open_library ⟨[], [], []⟩ true prefKeys catalogKeys).1.tags.map Prod.snd).Nodup
    ∧ (open_library ⟨[], [], []⟩ true prefKeys catalogKeys).1.prefs.Nodup
    ∧ (open_library ⟨[], [], []⟩ true prefKeys catalogKeys).1.valueTypes.Nodup := by
  have hfirst : open_library ⟨[], [], []⟩ true prefKeys catalogKeys
      = (⟨defaultTagRows, prefKeys.foldl guardedInsert [],
          catalogKeys.foldl guardedInsert []⟩, true) := by
    rw [open_library]
    have hconf : tagInsertConflict (BootState.mk [] [] []).tags defaultTagRows = false := by
      decide
    simp only [hconf, Bool.false_eq_true, if_false, if_true,
      foldl_insertPref_split, foldl_insertValueType_split]
    rfl
  rw [hfirst]
  have hsecond : open_library
      ⟨defaultTagRows, prefKeys.foldl guardedInsert [],
        catalogKeys.foldl guardedInsert []⟩ false prefKeys catalogKeys
      = (⟨defaultTagRows, prefKeys.foldl guardedInsert [],
          catalogKeys.foldl guardedInsert []⟩, true) := by
    rw [open_library]
    simp only [Bool.false_eq_true, if_false, foldl_insertPref_split]
    rw [foldl_guardedInsert_eq_self _ _
      (fun k hk => mem_foldl_guardedInsert_self _ _ _ hk)]
  refine ⟨hsecond,
    (by decide : ((defaultTagRows.map Prod.fst)).Nodup),
    (by decide : ((defaultTagRows.map Prod.snd)).Nodup), ?_, ?_⟩
  · exact nodup_foldl_guardedInsert _ _ List.nodup_nil
  · exact nodup_foldl_guardedInsert _ _ List.nodup_nil

end TagStudio
